import Mathlib

/-!
Verification of the analytics aggregator of the OrbiTrip admin dashboard
(`AdminDashboard`, the `analytics` memo).  The aggregator consumes the
in-memory booking and driver collections, the settings record and a
time-range selector, and produces summary figures, leaderboards and a
trend series.  This file gives a shallow embedding of that computation
and proves the specified properties about it.

Modelling conventions:
* timestamps (`createdAt`, the current time `now`) are integer
  milliseconds since the Unix epoch; calendar fields (`getFullYear`,
  `getMonth`, `getDate`) are computed from the millisecond value with the
  standard civil-from-days conversion (UTC);
* JS numbers are embedded as rationals (`Rat`); `Math.round x` is
  `⌊x + 1/2⌋`;
* a possibly-missing field is an `Option`; `numericPrice = none` models
  an absent or non-numeric price (so `Number(b.numericPrice) || 0`
  becomes `Option.getD 0`); string truthiness (`b.driverId && ...`)
  treats both a missing and an empty string as falsy;
* a JS object used as a string-keyed dictionary is an association list
  in key-insertion order; `Array.prototype.sort`, which is stable, is
  embedded as a stable insertion sort on the comparator's key.
-/

/-- Booking record: the fields of the `Booking` entity that the
aggregator reads (`createdAt`, `status`, `numericPrice`, `driverId`,
`driverName`, `tourTitle`). -/
structure Booking where
  createdAt : Int
  status : String
  numericPrice : Option Rat
  driverId : Option String
  driverName : Option String
  tourTitle : Option String
deriving Repr, DecidableEq

/-- Driver record: the aggregator reads only the driver's `status`. -/
structure Driver where
  status : String
deriving Repr, DecidableEq

/-- Settings record: the aggregator reads only `commissionRate`, which
may be undefined. -/
structure SystemSettings where
  commissionRate : Option Rat
deriving Repr, DecidableEq

/-- The analytics time-range selector. -/
inductive TimeRange
  | TODAY
  | WEEK
  | MONTH
  | ALL
deriving Repr, DecidableEq

/-- One entry of the driver leaderboard (`driverPerformance` values). -/
structure DriverPerf where
  name : String
  trips : Nat
  revenue : Rat
deriving Repr, DecidableEq

/-- One entry of the route popularity list. -/
structure RouteCount where
  name : String
  count : Nat
deriving Repr, DecidableEq

/-- One entry of the trend series.  The `amount` is the booking's raw
`numericPrice` field (not coerced), hence an `Option`. -/
structure TrendPoint where
  date : String
  amount : Option Rat
deriving Repr, DecidableEq

/-- The record returned by the `analytics` memo. -/
structure AnalyticsResult where
  totalBookings : Nat
  confirmedCount : Nat
  pendingCount : Nat
  cancelledCount : Nat
  totalGross : Rat
  totalCommission : Int
  netRevenue : Rat
  aov : Int
  topDrivers : List DriverPerf
  topRoutes : List RouteCount
  trendData : List TrendPoint
  activeDrivers : Nat
  pendingDrivers : Nat
deriving Repr, DecidableEq

/-- Civil date (year, month 1..12, day of month) of a millisecond
timestamp, by the standard days-to-civil conversion (UTC). -/
def ymd (t : Int) : Int × Int × Int :=
  let z := t.fdiv 86400000 + 719468
  let era := z.fdiv 146097
  let doe := z - era * 146097
  let yoe := (doe - doe.fdiv 1460 + doe.fdiv 36524 - doe.fdiv 146096).fdiv 365
  let y := yoe + era * 400
  let doy := doe - (365 * yoe + yoe.fdiv 4 - yoe.fdiv 100)
  let mp := (5 * doy + 2).fdiv 153
  let d := doy - (153 * mp + 2).fdiv 5 + 1
  let m := if mp < 10 then mp + 3 else mp - 9
  (if m ≤ 2 then y + 1 else y, m, d)

/-- English short month name, as produced by
`toLocaleDateString('en-GB', { month: 'short' })`. -/
def monthShort (m : Int) : String :=
  if m = 1 then "Jan" else if m = 2 then "Feb" else if m = 3 then "Mar"
  else if m = 4 then "Apr" else if m = 5 then "May" else if m = 6 then "Jun"
  else if m = 7 then "Jul" else if m = 8 then "Aug" else if m = 9 then "Sep"
  else if m = 10 then "Oct" else if m = 11 then "Nov" else if m = 12 then "Dec"
  else ""

/-- `toLocaleDateString('en-GB', { day: 'numeric', month: 'short' })`,
e.g. "12 Oct". -/
def fmtDate (t : Int) : String :=
  toString (ymd t).2.2 ++ " " ++ monthShort (ymd t).2.1

/-- `Math.round` of JavaScript: `⌊x + 1/2⌋` (round half toward positive
infinity), returning an integer. -/
def jsRound (q : Rat) : Int := ⌊q + 1 / 2⌋

/-- JS truthiness of a possibly-missing string: `undefined`, `null` and
`""` are falsy. -/
def truthyS : Option String → Bool
  | none => false
  | some s => decide (s ≠ "")

/-- `Number(b.numericPrice) || 0`: a missing or non-numeric price
contributes zero. -/
def priceNum (b : Booking) : Rat := b.numericPrice.getD 0

/-- The time-range predicate of the source's `bookings.filter`:
`ALL` keeps everything; `TODAY` compares day-of-month, month and year of
the booking's creation date with the current date; `WEEK` and `MONTH`
keep bookings created at or after now minus 7 (resp. 30) days of
milliseconds. -/
def rangePred (timeRange : TimeRange) (now : Int) (b : Booking) : Bool :=
  match timeRange with
  | .ALL => true
  | .TODAY =>
      decide ((ymd b.createdAt).2.2 = (ymd now).2.2) &&
      decide ((ymd b.createdAt).2.1 = (ymd now).2.1) &&
      decide ((ymd b.createdAt).1 = (ymd now).1)
  | .WEEK => decide (now - 7 * 24 * 60 * 60 * 1000 ≤ b.createdAt)
  | .MONTH => decide (now - 30 * 24 * 60 * 60 * 1000 ≤ b.createdAt)

/-- `filteredBookings` of the source. -/
def filteredBookings (timeRange : TimeRange) (now : Int) (bookings : List Booking) :
    List Booking :=
  bookings.filter (rangePred timeRange now)

/-- `b.status === 'CONFIRMED' || b.status === 'COMPLETED'`. -/
def isConfirmedB (b : Booking) : Bool :=
  b.status == "CONFIRMED" || b.status == "COMPLETED"

/-- `b.status === 'PENDING'`. -/
def isPendingB (b : Booking) : Bool := b.status == "PENDING"

/-- `b.status === 'CANCELLED'`. -/
def isCancelledB (b : Booking) : Bool := b.status == "CANCELLED"

/-- `confirmed` of the source: filtered bookings with status CONFIRMED
or COMPLETED. -/
def confirmedOf (r : TimeRange) (now : Int) (bs : List Booking) : List Booking :=
  (filteredBookings r now bs).filter isConfirmedB

/-- `pending` of the source. -/
def pendingOf (r : TimeRange) (now : Int) (bs : List Booking) : List Booking :=
  (filteredBookings r now bs).filter isPendingB

/-- `cancelled` of the source. -/
def cancelledOf (r : TimeRange) (now : Int) (bs : List Booking) : List Booking :=
  (filteredBookings r now bs).filter isCancelledB

/-- `totalGross`: `confirmed.reduce((sum, b) => sum + (Number(b.numericPrice) || 0), 0)`. -/
def totalGrossOf (r : TimeRange) (now : Int) (bs : List Booking) : Rat :=
  (confirmedOf r now bs).foldl (fun sum b => sum + priceNum b) 0

/-- `settings?.commissionRate !== undefined ? settings.commissionRate : 0.13`. -/
def commissionRateOf : Option SystemSettings → Rat
  | some st =>
      match st.commissionRate with
      | some r => r
      | none => 13 / 100
  | none => 13 / 100

/-- `totalCommission = Math.round(totalGross * commission)`. -/
def totalCommissionOf (s : Option SystemSettings) (r : TimeRange) (now : Int)
    (bs : List Booking) : Int :=
  jsRound (totalGrossOf r now bs * commissionRateOf s)

/-- `netRevenue = totalGross - totalCommission`. -/
def netRevenueOf (s : Option SystemSettings) (r : TimeRange) (now : Int)
    (bs : List Booking) : Rat :=
  totalGrossOf r now bs - (totalCommissionOf s r now bs : Rat)

/-- `aov = confirmed.length > 0 ? Math.round(totalGross / confirmed.length) : 0`. -/
def aovOf (r : TimeRange) (now : Int) (bs : List Booking) : Int :=
  if 0 < (confirmedOf r now bs).length then
    jsRound (totalGrossOf r now bs / ((confirmedOf r now bs).length : Rat))
  else 0

/-- Update of a string-keyed dictionary in insertion order: if the key
of `a` is present, combine the stored value with `a`; otherwise append
the key at the end, bound to the default `init a` combined with `a`
(the source's "insert `{..., 0, 0}` then `+=`" idiom). -/
def upsert {α β : Type} (key : α → String) (init : α → β) (comb : β → α → β) :
    List (String × β) → α → List (String × β)
  | [], a => [(key a, comb (init a) a)]
  | (k, v) :: m, a =>
      if k = key a then (k, comb v a) :: m else (k, v) :: upsert key init comb m a

/-- Fold a list into a string-keyed dictionary (a JS object built by
repeated `obj[key] = f(obj[key])`). -/
def groupFold {α β : Type} (key : α → String) (init : α → β) (comb : β → α → β)
    (l : List α) : List (String × β) :=
  l.foldl (upsert key init comb) []

/-- `dp[id].trips += 1; dp[id].revenue += Number(b.numericPrice) || 0`. -/
def dComb (v : DriverPerf) (b : Booking) : DriverPerf :=
  ⟨v.name, v.trips + 1, v.revenue + priceNum b⟩

/-- `dp[id] = { name: b.driverName, trips: 0, revenue: 0 }`. -/
def dInit (b : Booking) : DriverPerf :=
  ⟨b.driverName.getD "", 0, 0⟩

/-- Grouping key of the driver leaderboard: the booking's driverId. -/
def dKey (b : Booking) : String := b.driverId.getD ""

/-- The guard `if (b.driverId && b.driverName)` of the source: both the
driver id and the driver name must be truthy. -/
def driverEligible (b : Booking) : Bool :=
  truthyS b.driverId && truthyS b.driverName

/-- `driverPerformance`: confirmed bookings folded into a dictionary
keyed by driver id, skipping bookings whose driver id or driver name is
not truthy. -/
def driverPerformanceOf (r : TimeRange) (now : Int) (bs : List Booking) :
    List (String × DriverPerf) :=
  (confirmedOf r now bs).foldl
    (fun m b => if driverEligible b then upsert dKey dInit dComb m b else m) []

/-- Stable insertion into a list sorted in non-increasing order of
`f`: `x` goes in front of the first element whose key is `≤ f x`, hence
after every earlier element with an equal key. -/
def insSortedBy {γ κ : Type} [LinearOrder κ] (f : γ → κ) (x : γ) :
    List γ → List γ
  | [] => [x]
  | y :: ys => if f y ≤ f x then x :: y :: ys else y :: insSortedBy f x ys

/-- Stable sort in non-increasing order of `f` (the embedding of the
stable `Array.prototype.sort` under comparator `(a, b) => f b - f a`). -/
def sortByDesc {γ κ : Type} [LinearOrder κ] (f : γ → κ) : List γ → List γ
  | [] => []
  | x :: xs => insSortedBy f x (sortByDesc f xs)

/-- `topDrivers = Object.values(driverPerformance).sort((a, b) => b.revenue - a.revenue).slice(0, 5)`. -/
def topDriversOf (r : TimeRange) (now : Int) (bs : List Booking) : List DriverPerf :=
  (sortByDesc (fun p => p.revenue) ((driverPerformanceOf r now bs).map Prod.snd)).take 5

/-- `const title = b.tourTitle || 'Custom'`. -/
def titleOf (b : Booking) : String :=
  match b.tourTitle with
  | some t => if t = "" then "Custom" else t
  | none => "Custom"

/-- `routePopularity[title] = (routePopularity[title] || 0) + 1` over the
filtered bookings. -/
def routePopularityOf (r : TimeRange) (now : Int) (bs : List Booking) :
    List (String × Nat) :=
  (filteredBookings r now bs).foldl (upsert titleOf (fun _ => 0) (fun c _ => c + 1)) []

/-- `topRoutes = Object.entries(routePopularity).map(([name, count]) => ({name, count})).sort((a, b) => b.count - a.count).slice(0, 5)`. -/
def topRoutesOf (r : TimeRange) (now : Int) (bs : List Booking) : List RouteCount :=
  (sortByDesc (fun p => p.count)
    ((routePopularityOf r now bs).map (fun kv => RouteCount.mk kv.1 kv.2))).take 5

/-- `trendData = confirmed.slice(0, 10).map(b => ({ date: ..., amount: b.numericPrice })).reverse()`. -/
def trendDataOf (r : TimeRange) (now : Int) (bs : List Booking) : List TrendPoint :=
  (((confirmedOf r now bs).take 10).map
    (fun b => TrendPoint.mk (fmtDate b.createdAt) b.numericPrice)).reverse

/-- The analytics aggregator (the `analytics` memo of `AdminDashboard`),
with the current time `now` passed explicitly. -/
def analytics (bookings : List Booking) (drivers : List Driver)
    (settings : Option SystemSettings) (timeRange : TimeRange) (now : Int) :
    AnalyticsResult :=
  { totalBookings := (filteredBookings timeRange now bookings).length
    confirmedCount := (confirmedOf timeRange now bookings).length
    pendingCount := (pendingOf timeRange now bookings).length
    cancelledCount := (cancelledOf timeRange now bookings).length
    totalGross := totalGrossOf timeRange now bookings
    totalCommission := totalCommissionOf settings timeRange now bookings
    netRevenue := netRevenueOf settings timeRange now bookings
    aov := aovOf timeRange now bookings
    topDrivers := topDriversOf timeRange now bookings
    topRoutes := topRoutesOf timeRange now bookings
    trendData := trendDataOf timeRange now bookings
    activeDrivers := (drivers.filter (fun d => d.status == "ACTIVE")).length
    pendingDrivers := (drivers.filter (fun d => d.status == "PENDING")).length }

/-! ### Stable sort lemmas -/

theorem mem_insSortedBy {γ κ : Type} [LinearOrder κ] (f : γ → κ) (x a : γ) :
    ∀ l : List γ, a ∈ insSortedBy f x l ↔ a = x ∨ a ∈ l
  | [] => by simp [insSortedBy]
  | y :: ys => by
    simp only [insSortedBy]
    split
    · simp [List.mem_cons]
    · simp only [List.mem_cons, mem_insSortedBy f x a ys]
      tauto

theorem pairwise_insSortedBy {γ κ : Type} [LinearOrder κ] (f : γ → κ) (x : γ) :
    ∀ {l : List γ}, l.Pairwise (fun a b => f b ≤ f a) →
      (insSortedBy f x l).Pairwise (fun a b => f b ≤ f a)
  | [], _ => by simp [insSortedBy]
  | y :: ys, h => by
    rw [List.pairwise_cons] at h
    obtain ⟨hy, hys⟩ := h
    simp only [insSortedBy]
    split
    · rename_i hle
      refine List.Pairwise.cons ?_ (List.Pairwise.cons hy hys)
      intro z hz
      rcases List.mem_cons.mp hz with rfl | hz
      · exact hle
      · exact le_trans (hy z hz) hle
    · rename_i hlt
      refine List.Pairwise.cons ?_ (pairwise_insSortedBy f x hys)
      intro z hz
      rcases (mem_insSortedBy f x z ys).mp hz with rfl | hz
      · exact le_of_not_le hlt
      · exact hy z hz

theorem pairwise_sortByDesc {γ κ : Type} [LinearOrder κ] (f : γ → κ) :
    ∀ l : List γ, (sortByDesc f l).Pairwise (fun a b => f b ≤ f a)
  | [] => by simp [sortByDesc]
  | x :: xs => pairwise_insSortedBy f x (pairwise_sortByDesc f xs)

theorem mem_sortByDesc {γ κ : Type} [LinearOrder κ] (f : γ → κ) (a : γ) :
    ∀ l : List γ, a ∈ sortByDesc f l ↔ a ∈ l
  | [] => Iff.rfl
  | x :: xs => by
    simp [sortByDesc, mem_insSortedBy, mem_sortByDesc f a xs]

/-! ### Dictionary grouping lemmas -/

/-- Folding with a guarded step is folding the filtered list. -/
theorem foldl_guard {α β : Type} (p : α → Bool) (g : β → α → β) :
    ∀ (l : List α) (m : β),
      l.foldl (fun m a => if p a then g m a else m) m = (l.filter p).foldl g m
  | [], _ => rfl
  | a :: l, m => by
    simp only [List.foldl_cons, List.filter_cons]
    by_cases h : p a = true
    · simp only [h, if_true]
      rw [List.foldl_cons]
      exact foldl_guard p g l (g m a)
    · simp only [h, if_false, Bool.false_eq_true]
      exact foldl_guard p g l m

/-- Folding `upsert` over a dictionary whose head key is `k` updates the
head entry with exactly the elements keyed `k` and recurses on the rest
with the other elements. -/
theorem foldl_upsert_cons {α β : Type} (key : α → String) (init : α → β)
    (comb : β → α → β) :
    ∀ (l : List α) (k : String) (v : β) (m : List (String × β)),
      l.foldl (upsert key init comb) ((k, v) :: m)
        = (k, (l.filter (fun a => decide (key a = k))).foldl comb v)
          :: (l.filter (fun a => decide (key a ≠ k))).foldl (upsert key init comb) m
  | [], k, v, m => rfl
  | a :: l, k, v, m => by
    by_cases h : key a = k
    · have e1 : (a :: l).filter (fun x => decide (key x = k))
          = a :: l.filter (fun x => decide (key x = k)) := by
        simp [List.filter_cons, h]
      have e2 : (a :: l).filter (fun x => decide (key x ≠ k))
          = l.filter (fun x => decide (key x ≠ k)) := by
        simp [List.filter_cons, h]
      have e3 : upsert key init comb ((k, v) :: m) a = (k, comb v a) :: m := by
        simp [upsert, h.symm]
      rw [e1, e2, List.foldl_cons, e3, List.foldl_cons]
      exact foldl_upsert_cons key init comb l k (comb v a) m
    · have e1 : (a :: l).filter (fun x => decide (key x = k))
          = l.filter (fun x => decide (key x = k)) := by
        simp [List.filter_cons, h]
      have e2 : (a :: l).filter (fun x => decide (key x ≠ k))
          = a :: l.filter (fun x => decide (key x ≠ k)) := by
        simp [List.filter_cons, h]
      have e3 : upsert key init comb ((k, v) :: m) a
          = (k, v) :: upsert key init comb m a := by
        have h' : ¬(k = key a) := fun hk => h hk.symm
        simp [upsert, h']
      rw [List.foldl_cons, e3, e1, e2, List.foldl_cons]
      exact foldl_upsert_cons key init comb l k v (upsert key init comb m a)

/-- First-encounter grouping, stated the way the spec describes it: each
distinct key, in order of first occurrence, paired with the aggregation
of all elements carrying that key. -/
def groupSpec {α β : Type} (key : α → String) (init : α → β) (comb : β → α → β) :
    List α → List (String × β)
  | [] => []
  | a :: as =>
      (key a, (as.filter (fun x => decide (key x = key a))).foldl comb (comb (init a) a))
        :: groupSpec key init comb (as.filter (fun x => decide (key x ≠ key a)))
termination_by l => l.length
decreasing_by
  simp only [List.length_cons]
  exact Nat.lt_succ_of_le (List.length_filter_le _ _)

/-- The dictionary built by the fold is exactly the first-encounter
grouping. -/
theorem groupFold_eq_groupSpec {α β : Type} (key : α → String) (init : α → β)
    (comb : β → α → β) (l : List α) :
    groupFold key init comb l = groupSpec key init comb l := by
  match l with
  | [] => simp [groupFold, groupSpec]
  | a :: as =>
    rw [groupFold, List.foldl_cons]
    have h0 : upsert key init comb [] a = [(key a, comb (init a) a)] := rfl
    rw [h0, foldl_upsert_cons key init comb as (key a) (comb (init a) a) []]
    rw [groupSpec]
    have := groupFold_eq_groupSpec key init comb
      (as.filter (fun x => decide (key x ≠ key a)))
    rw [groupFold] at this
    rw [this]
termination_by l.length
decreasing_by
  simp only [List.length_cons]
  exact Nat.lt_succ_of_le (List.length_filter_le _ _)

/-! ### Claim-side (specification-language) definitions -/

/-- The time-range window exactly as the specification words it: TODAY =
same calendar year, month and day-of-month as the current time; WEEK =
created at or after now minus 7×24 hours; MONTH = at or after now minus
30×24 hours; ALL = unfiltered. -/
def matchesRange (r : TimeRange) (now : Int) (b : Booking) : Bool :=
  match r with
  | .TODAY => decide (ymd b.createdAt = ymd now)
  | .WEEK => decide (now - 7 * 24 * 60 * 60 * 1000 ≤ b.createdAt)
  | .MONTH => decide (now - 30 * 24 * 60 * 60 * 1000 ≤ b.createdAt)
  | .ALL => true

/-- A status counted by one of the three partitions. -/
def statusCounted (b : Booking) : Bool :=
  isConfirmedB b || isPendingB b || isCancelledB b

/-- Driver grouping as the specification words it: for each driver (in
first-encountered order) the name of its first booking, the number of
its bookings, and the sum of their prices. -/
def driverGroups : List Booking → List DriverPerf
  | [] => []
  | b :: bs =>
      ⟨b.driverName.getD "", 1 + (bs.filter (fun x => decide (dKey x = dKey b))).length,
        priceNum b + ((bs.filter (fun x => decide (dKey x = dKey b))).map priceNum).sum⟩
        :: driverGroups (bs.filter (fun x => decide (dKey x ≠ dKey b)))
termination_by l => l.length
decreasing_by
  simp only [List.length_cons]
  exact Nat.lt_succ_of_le (List.length_filter_le _ _)

/-- Route grouping as the specification words it: each title (in
first-encountered order) with its number of occurrences. -/
def routeGroups : List Booking → List RouteCount
  | [] => []
  | b :: bs =>
      ⟨titleOf b, 1 + (bs.filter (fun x => decide (titleOf x = titleOf b))).length⟩
        :: routeGroups (bs.filter (fun x => decide (titleOf x ≠ titleOf b)))
termination_by l => l.length
decreasing_by
  simp only [List.length_cons]
  exact Nat.lt_succ_of_le (List.length_filter_le _ _)

/-- The leaderboard that the claim describes: identical to the source's
computation except that only bookings lacking a (truthy) driver
identifier are excluded — a missing driver name does not exclude a
booking. -/
def topDriversByIdOnly (r : TimeRange) (now : Int) (bs : List Booking) :
    List DriverPerf :=
  (sortByDesc (fun p => p.revenue)
    ((groupFold dKey dInit dComb
      ((confirmedOf r now bs).filter (fun b => truthyS b.driverId))).map Prod.snd)).take 5

/-! ### Small fold lemmas -/

/-- Summing with `foldl` from an arbitrary start. -/
theorem foldl_add_price : ∀ (l : List Booking) (q : Rat),
    l.foldl (fun sum b => sum + priceNum b) q = q + (l.map priceNum).sum
  | [], q => by simp
  | b :: l, q => by
    rw [List.foldl_cons, foldl_add_price l (q + priceNum b)]
    simp [add_assoc]

/-- Counting with `foldl` from an arbitrary start. -/
theorem foldl_count_aux : ∀ (l : List Booking) (n : Nat),
    l.foldl (fun c (_ : Booking) => c + 1) n = n + l.length
  | [], n => by simp
  | b :: l, n => by
    rw [List.foldl_cons, foldl_count_aux l (n + 1)]
    simp only [List.length_cons]
    omega

/-- Folding `dComb` accumulates one trip and one price per booking. -/
theorem foldl_dComb : ∀ (l : List Booking) (v : DriverPerf),
    l.foldl dComb v = ⟨v.name, v.trips + l.length, v.revenue + (l.map priceNum).sum⟩
  | [], v => by simp
  | b :: l, v => by
    rw [List.foldl_cons, foldl_dComb l (dComb v b)]
    simp only [dComb, List.length_cons, List.map_cons, List.sum_cons, DriverPerf.mk.injEq]
    refine ⟨trivial, by omega, by ring⟩

/-- The driver grouping of the source equals the specification-language
grouping of the eligible bookings. -/
theorem map_snd_groupSpec_driver (l : List Booking) :
    (groupSpec dKey dInit dComb l).map Prod.snd = driverGroups l := by
  match l with
  | [] => simp [groupSpec, driverGroups]
  | b :: bs =>
    rw [groupSpec, driverGroups, List.map_cons]
    rw [map_snd_groupSpec_driver (bs.filter (fun x => decide (dKey x ≠ dKey b)))]
    rw [foldl_dComb]
    simp only [dComb, dInit, DriverPerf.mk.injEq, List.cons.injEq]
    simp
termination_by l.length
decreasing_by
  simp only [List.length_cons]
  exact Nat.lt_succ_of_le (List.length_filter_le _ _)

/-- The route grouping of the source equals the specification-language
occurrence count. -/
theorem map_groupSpec_route (l : List Booking) :
    (groupSpec titleOf (fun _ => 0) (fun c _ => c + 1) l).map
        (fun kv => RouteCount.mk kv.1 kv.2)
      = routeGroups l := by
  match l with
  | [] => simp [groupSpec, routeGroups]
  | b :: bs =>
    rw [groupSpec, routeGroups, List.map_cons]
    rw [map_groupSpec_route (bs.filter (fun x => decide (titleOf x ≠ titleOf b)))]
    rw [foldl_count_aux]
termination_by l.length
decreasing_by
  simp only [List.length_cons]
  exact Nat.lt_succ_of_le (List.length_filter_le _ _)

/-- `driverPerformance` is the guarded fold, i.e. the fold over the
eligible bookings. -/
theorem driverPerformanceOf_eq (r : TimeRange) (now : Int) (bs : List Booking) :
    driverPerformanceOf r now bs
      = groupFold dKey dInit dComb ((confirmedOf r now bs).filter driverEligible) := by
  unfold driverPerformanceOf groupFold
  exact foldl_guard driverEligible (upsert dKey dInit dComb) _ []

/-- `topDrivers` in specification language. -/
theorem topDriversOf_eq (r : TimeRange) (now : Int) (bs : List Booking) :
    topDriversOf r now bs
      = (sortByDesc (fun p => p.revenue)
          (driverGroups ((confirmedOf r now bs).filter driverEligible))).take 5 := by
  rw [topDriversOf, driverPerformanceOf_eq, groupFold_eq_groupSpec,
    map_snd_groupSpec_driver]

/-- `topRoutes` in specification language. -/
theorem topRoutesOf_eq (r : TimeRange) (now : Int) (bs : List Booking) :
    topRoutesOf r now bs
      = (sortByDesc (fun p => p.count)
          (routeGroups (filteredBookings r now bs))).take 5 := by
  rw [topRoutesOf, routePopularityOf, show (filteredBookings r now bs).foldl
      (upsert titleOf (fun _ => 0) (fun c _ => c + 1)) []
      = groupFold titleOf (fun _ => 0) (fun c _ => c + 1) (filteredBookings r now bs)
    from rfl, groupFold_eq_groupSpec, map_groupSpec_route]

/-! ### Status partition lemmas -/

/-- Each booking contributes to exactly one of the three partitions when
its status is one of the four enumerated values, and to none otherwise. -/
theorem statusWeight (b : Booking) :
    ((if isConfirmedB b = true then 1 else 0) + (if isPendingB b = true then 1 else 0) +
        (if isCancelledB b = true then 1 else 0) : Nat)
      = if statusCounted b = true then 1 else 0 := by
  unfold statusCounted isConfirmedB isPendingB isCancelledB
  by_cases h1 : b.status = "CONFIRMED" <;> by_cases h2 : b.status = "COMPLETED" <;>
    by_cases h3 : b.status = "PENDING" <;> by_cases h4 : b.status = "CANCELLED" <;>
    simp_all [beq_iff_eq]

/-- The three status partitions never count more bookings than the
total, with equality exactly when every booking's status is one of the
four enumerated values. -/
theorem countP_partition : ∀ l : List Booking,
    (l.countP isConfirmedB + l.countP isPendingB + l.countP isCancelledB ≤ l.length) ∧
    (l.countP isConfirmedB + l.countP isPendingB + l.countP isCancelledB = l.length ↔
      ∀ b ∈ l, statusCounted b = true)
  | [] => by simp
  | b :: l => by
    obtain ⟨ih1, ih2⟩ := countP_partition l
    have hw := statusWeight b
    simp only [List.countP_cons, List.length_cons, List.forall_mem_cons]
    by_cases hc : statusCounted b = true
    · rw [if_pos hc] at hw
      refine ⟨by omega, ?_⟩
      simp only [hc, true_and]
      constructor
      · intro h
        exact ih2.mp (by omega)
      · intro h
        have := ih2.mpr h
        omega
    · rw [if_neg hc] at hw
      refine ⟨by omega, ?_⟩
      constructor
      · intro h
        exfalso
        omega
      · intro h
        exact absurd h.1 hc

/-! ### Rounding lemmas -/

theorem jsRound_le (q : Rat) : (jsRound q : Rat) ≤ q + 1 / 2 :=
  Int.floor_le _

theorem lt_jsRound (q : Rat) : q - 1 / 2 < (jsRound q : Rat) := by
  have h : q + 1 / 2 < (jsRound q : Rat) + 1 := Int.lt_floor_add_one _
  linarith

/-! ### The filter predicate in specification language -/

/-- The source's range predicate coincides with the specification's
window description. -/
theorem rangePred_eq_matchesRange (r : TimeRange) (now : Int) (b : Booking) :
    rangePred r now b = matchesRange r now b := by
  cases r with
  | TODAY =>
    simp only [rangePred, matchesRange]
    rw [Bool.eq_iff_iff]
    simp only [Bool.and_eq_true, decide_eq_true_eq, Prod.ext_iff]
    tauto
  | WEEK => rfl
  | MONTH => rfl
  | ALL => rfl

/-! ### Route count lemmas -/

/-- Every entry of the route grouping is named after the title of some
booking of the grouped list. -/
theorem routeGroups_name (l : List Booking) (e : RouteCount)
    (he : e ∈ routeGroups l) : ∃ x ∈ l, titleOf x = e.name := by
  match l with
  | [] => simp [routeGroups] at he
  | b :: bs =>
    rw [routeGroups] at he
    rcases List.mem_cons.mp he with rfl | he'
    · exact ⟨b, List.mem_cons_self b bs, rfl⟩
    · obtain ⟨x, hx, hxe⟩ :=
        routeGroups_name (bs.filter (fun x => decide (titleOf x ≠ titleOf b))) e he'
      exact ⟨x, List.mem_cons_of_mem b (List.mem_of_mem_filter hx), hxe⟩
termination_by l.length
decreasing_by
  simp only [List.length_cons]
  exact Nat.lt_succ_of_le (List.length_filter_le _ _)

/-- Every entry of the route grouping counts exactly the occurrences of
its title in the grouped list. -/
theorem routeGroups_count (l : List Booking) (e : RouteCount)
    (he : e ∈ routeGroups l) :
    e.count = (l.filter (fun x => decide (titleOf x = e.name))).length := by
  match l with
  | [] => simp [routeGroups] at he
  | b :: bs =>
    rw [routeGroups] at he
    rcases List.mem_cons.mp he with rfl | he'
    · simp [List.filter_cons]
      omega
    · have hne : e.name ≠ titleOf b := by
        obtain ⟨x, hx, hxe⟩ :=
          routeGroups_name (bs.filter (fun x => decide (titleOf x ≠ titleOf b))) e he'
        have hxb := List.of_mem_filter hx
        simp only [decide_eq_true_eq] at hxb
        rw [← hxe]
        exact hxb
      have ih := routeGroups_count
        (bs.filter (fun x => decide (titleOf x ≠ titleOf b))) e he'
      rw [ih, List.filter_filter]
      have hcong : ∀ x ∈ bs,
          ((decide (titleOf x = e.name)) && (decide (titleOf x ≠ titleOf b)))
            = decide (titleOf x = e.name) := by
        intro x _
        by_cases hp : titleOf x = e.name
        · have : titleOf x ≠ titleOf b := by rw [hp]; exact hne
          simp [hp, this, hne]
        · simp [hp]
      rw [List.filter_congr hcong, List.filter_cons]
      have hb : ¬(titleOf b = e.name) := fun hh => hne hh.symm
      simp [hb]
termination_by l.length
decreasing_by
  simp only [List.length_cons]
  exact Nat.lt_succ_of_le (List.length_filter_le _ _)

/-! ### Claim theorems -/

/-- Claim C1: the aggregator's filtered set contains exactly the
bookings whose creation timestamp satisfies the selector (TODAY: same
calendar year, month and day-of-month as the current time; WEEK: created
at or after now minus 7×24 hours; MONTH: at or after now minus 30×24
hours; ALL: every booking); consequently the filtered set is always a
sublist of the input collection, and under ALL it equals it. -/
theorem filteredBookings_spec (r : TimeRange) (now : Int) (bs : List Booking) :
    filteredBookings r now bs = bs.filter (matchesRange r now) ∧
    List.Sublist (filteredBookings r now bs) bs ∧
    filteredBookings .ALL now bs = bs := by
  refine ⟨?_, List.filter_sublist bs, ?_⟩
  · unfold filteredBookings
    exact List.filter_congr (fun b _ => rangePred_eq_matchesRange r now b)
  · show bs.filter (rangePred .ALL now) = bs
    have h : rangePred .ALL now = fun _ => true := rfl
    rw [h]
    exact List.filter_true bs

/-- Helper: a status is counted by one of the three partitions exactly
when it is one of the four enumerated values. -/
theorem statusCounted_iff (b : Booking) :
    statusCounted b = true ↔
      b.status ∈ (["CONFIRMED", "COMPLETED", "PENDING", "CANCELLED"] : List String) := by
  simp only [statusCounted, isConfirmedB, isPendingB, isCancelledB, Bool.or_eq_true,
    beq_iff_eq, List.mem_cons, List.not_mem_nil, or_false]
  tauto

/-- Claim C2: `totalGross` is the sum of the numeric prices of the
confirmed bookings of the filtered set, a missing or invalid price
contributing zero; `totalCommission` is `round(totalGross × rate)`; and
for every rate in [0, 1], `netRevenue + totalCommission = totalGross`. -/
theorem revenue_identities (bs : List Booking) (ds : List Driver)
    (s : Option SystemSettings) (r : TimeRange) (now : Int) :
    (analytics bs ds s r now).totalGross = ((confirmedOf r now bs).map priceNum).sum ∧
    (analytics bs ds s r now).totalCommission
      = jsRound ((analytics bs ds s r now).totalGross * commissionRateOf s) ∧
    (0 ≤ commissionRateOf s → commissionRateOf s ≤ 1 →
      (analytics bs ds s r now).netRevenue
          + ((analytics bs ds s r now).totalCommission : Rat)
        = (analytics bs ds s r now).totalGross) := by
  refine ⟨?_, rfl, ?_⟩
  · show totalGrossOf r now bs = _
    rw [totalGrossOf, foldl_add_price]
    simp
  · intro _ _
    show netRevenueOf s r now bs + ((totalCommissionOf s r now bs : Int) : Rat)
        = totalGrossOf r now bs
    rw [netRevenueOf]
    ring

/-- Witness for C2: at one confirmed booking of price 100 and rate 0.13
(which lies in [0, 1]) the theorem instantiates. -/
theorem revenue_identities_witness :
    0 ≤ commissionRateOf (some ⟨some (13 / 100)⟩) ∧
    commissionRateOf (some ⟨some (13 / 100)⟩) ≤ 1 ∧
    (analytics [⟨0, "CONFIRMED", some 100, none, none, none⟩] []
        (some ⟨some (13 / 100)⟩) .ALL 0).netRevenue
      + ((analytics [⟨0, "CONFIRMED", some 100, none, none, none⟩] []
        (some ⟨some (13 / 100)⟩) .ALL 0).totalCommission : Rat)
      = (analytics [⟨0, "CONFIRMED", some 100, none, none, none⟩] []
        (some ⟨some (13 / 100)⟩) .ALL 0).totalGross := by
  have h1 : (0 : Rat) ≤ commissionRateOf (some ⟨some (13 / 100)⟩) := by
    norm_num [commissionRateOf]
  have h2 : commissionRateOf (some ⟨some (13 / 100)⟩) ≤ 1 := by
    norm_num [commissionRateOf]
  exact ⟨h1, h2,
    (revenue_identities [⟨0, "CONFIRMED", some 100, none, none, none⟩] []
      (some ⟨some (13 / 100)⟩) .ALL 0).2.2 h1 h2⟩

/-- Claim C3: the filtered set is partitioned by status — CONFIRMED or
COMPLETED into confirmedCount, PENDING into pendingCount, CANCELLED into
cancelledCount; a booking with any other status is counted in
totalBookings but in none of the three partitions; hence the three
counts sum to at most totalBookings, with equality exactly when every
filtered booking carries one of the four enumerated statuses. -/
theorem status_partition_spec (bs : List Booking) (ds : List Driver)
    (s : Option SystemSettings) (r : TimeRange) (now : Int) :
    (analytics bs ds s r now).confirmedCount + (analytics bs ds s r now).pendingCount
        + (analytics bs ds s r now).cancelledCount
      ≤ (analytics bs ds s r now).totalBookings ∧
    ((analytics bs ds s r now).confirmedCount + (analytics bs ds s r now).pendingCount
        + (analytics bs ds s r now).cancelledCount
      = (analytics bs ds s r now).totalBookings ↔
      ∀ b ∈ filteredBookings r now bs,
        b.status ∈ (["CONFIRMED", "COMPLETED", "PENDING", "CANCELLED"] : List String)) ∧
    (∀ b ∈ filteredBookings r now bs,
      b.status ∉ (["CONFIRMED", "COMPLETED", "PENDING", "CANCELLED"] : List String) →
        b ∉ confirmedOf r now bs ∧ b ∉ pendingOf r now bs ∧ b ∉ cancelledOf r now bs) := by
  have hc : (analytics bs ds s r now).confirmedCount
      = (filteredBookings r now bs).countP isConfirmedB := by
    show (confirmedOf r now bs).length = _
    rw [confirmedOf, List.countP_eq_length_filter]
  have hp : (analytics bs ds s r now).pendingCount
      = (filteredBookings r now bs).countP isPendingB := by
    show (pendingOf r now bs).length = _
    rw [pendingOf, List.countP_eq_length_filter]
  have hx : (analytics bs ds s r now).cancelledCount
      = (filteredBookings r now bs).countP isCancelledB := by
    show (cancelledOf r now bs).length = _
    rw [cancelledOf, List.countP_eq_length_filter]
  have ht : (analytics bs ds s r now).totalBookings
      = (filteredBookings r now bs).length := rfl
  obtain ⟨h1, h2⟩ := countP_partition (filteredBookings r now bs)
  refine ⟨by rw [hc, hp, hx, ht]; exact h1, ?_, ?_⟩
  · rw [hc, hp, hx, ht, h2]
    constructor
    · intro h b hb
      exact (statusCounted_iff b).mp (h b hb)
    · intro h b hb
      exact (statusCounted_iff b).mpr (h b hb)
  · intro b _ hnot
    have hsc : statusCounted b = false := by
      rcases Bool.eq_false_or_eq_true (statusCounted b) with h | h
      · exact absurd ((statusCounted_iff b).mp h) hnot
      · exact h
    have hsplit : isConfirmedB b = false ∧ isPendingB b = false ∧ isCancelledB b = false := by
      have := hsc
      simp only [statusCounted, Bool.or_eq_false_iff] at this
      exact ⟨this.1.1, this.1.2, this.2⟩
    refine ⟨?_, ?_, ?_⟩
    · rw [confirmedOf]
      intro hmem
      have := List.of_mem_filter hmem
      rw [hsplit.1] at this
      exact Bool.false_ne_true this
    · rw [pendingOf]
      intro hmem
      have := List.of_mem_filter hmem
      rw [hsplit.2.1] at this
      exact Bool.false_ne_true this
    · rw [cancelledOf]
      intro hmem
      have := List.of_mem_filter hmem
      rw [hsplit.2.2] at this
      exact Bool.false_ne_true this

/-- Witness for C3: a filtered booking with the non-enumerated status
REFUNDED is counted in the total but in none of the three partitions. -/
theorem status_partition_witness :
    (⟨0, "REFUNDED", none, none, none, none⟩ : Booking)
        ∉ confirmedOf .ALL 0 [⟨0, "REFUNDED", none, none, none, none⟩] ∧
    (⟨0, "REFUNDED", none, none, none, none⟩ : Booking)
        ∉ pendingOf .ALL 0 [⟨0, "REFUNDED", none, none, none, none⟩] ∧
    (⟨0, "REFUNDED", none, none, none, none⟩ : Booking)
        ∉ cancelledOf .ALL 0 [⟨0, "REFUNDED", none, none, none, none⟩] :=
  (status_partition_spec [⟨0, "REFUNDED", none, none, none, none⟩] [] none .ALL 0).2.2
    ⟨0, "REFUNDED", none, none, none, none⟩ (by decide) (by decide)

/-- Counterexample to claim C4 as stated: a confirmed booking carrying a
driver identifier but no driver name.  The source's guard also requires
a truthy driver name, so the booking is excluded and the leaderboard is
empty, whereas grouping that excludes only bookings lacking a driver
identifier — the claim's description, `topDriversByIdOnly` — retains it
and produces a non-empty leaderboard. -/
theorem topDrivers_missing_name_counterexample :
    (analytics [⟨0, "CONFIRMED", some 100, some "d1", none, none⟩] []
        none .ALL 0).topDrivers = [] ∧
    topDriversByIdOnly .ALL 0 [⟨0, "CONFIRMED", some 100, some "d1", none, none⟩]
        = [⟨"", 1, 100⟩] ∧
    topDriversByIdOnly .ALL 0 [⟨0, "CONFIRMED", some 100, some "d1", none, none⟩]
      ≠ (analytics [⟨0, "CONFIRMED", some 100, some "d1", none, none⟩] []
        none .ALL 0).topDrivers := by
  have h1 : (analytics [⟨0, "CONFIRMED", some 100, some "d1", none, none⟩] []
      none .ALL 0).topDrivers = [] := rfl
  have h2 : topDriversByIdOnly .ALL 0
      [⟨0, "CONFIRMED", some 100, some "d1", none, none⟩] = [⟨"", 1, 100⟩] := by
    norm_num [topDriversByIdOnly, groupFold, upsert, dKey, dInit, dComb, confirmedOf,
      filteredBookings, rangePred, isConfirmedB, truthyS, priceNum, sortByDesc,
      insSortedBy, List.filter, List.foldl]
  refine ⟨h1, h2, ?_⟩
  rw [h1, h2]
  simp

/-- Claim C4 (amended): the topDrivers leaderboard groups the confirmed
bookings by driver identifier — excluding bookings that lack a truthy
driver identifier or a truthy driver name — summing trip count and
revenue (missing/invalid price as zero) per driver in first-encountered
order, sorts stably by descending revenue and keeps at most the top 5,
sorted non-increasing by revenue. -/
theorem topDrivers_spec (bs : List Booking) (ds : List Driver)
    (s : Option SystemSettings) (r : TimeRange) (now : Int) :
    (analytics bs ds s r now).topDrivers
        = (sortByDesc (fun p => p.revenue)
            (driverGroups ((confirmedOf r now bs).filter driverEligible))).take 5 ∧
    (analytics bs ds s r now).topDrivers.length ≤ 5 ∧
    (analytics bs ds s r now).topDrivers.Pairwise (fun a b => b.revenue ≤ a.revenue) := by
  refine ⟨topDriversOf_eq r now bs, ?_, ?_⟩
  · show (topDriversOf r now bs).length ≤ 5
    rw [topDriversOf]
    exact List.length_take_le 5 _
  · show (topDriversOf r now bs).Pairwise (fun a b => b.revenue ≤ a.revenue)
    rw [topDriversOf]
    exact List.Pairwise.sublist (List.take_sublist 5 _)
      (pairwise_sortByDesc (fun p : DriverPerf => p.revenue) _)

/-- Claim C5: the topRoutes list groups the whole filtered set (not just
the confirmed bookings) by tour title with the label "Custom"
substituted when no title is present, counts occurrences per title in
first-encountered order, sorts stably by descending count and keeps at
most the top 5, sorted non-increasing by count; each entry's count is
the number of filtered bookings bearing its title. -/
theorem topRoutes_spec (bs : List Booking) (ds : List Driver)
    (s : Option SystemSettings) (r : TimeRange) (now : Int) :
    (analytics bs ds s r now).topRoutes
        = (sortByDesc (fun p => p.count)
            (routeGroups (filteredBookings r now bs))).take 5 ∧
    (analytics bs ds s r now).topRoutes.length ≤ 5 ∧
    (analytics bs ds s r now).topRoutes.Pairwise (fun a b => b.count ≤ a.count) ∧
    (∀ e ∈ (analytics bs ds s r now).topRoutes,
      e.count = ((filteredBookings r now bs).filter
        (fun x => decide (titleOf x = e.name))).length) := by
  refine ⟨topRoutesOf_eq r now bs, ?_, ?_, ?_⟩
  · show (topRoutesOf r now bs).length ≤ 5
    rw [topRoutesOf]
    exact List.length_take_le 5 _
  · show (topRoutesOf r now bs).Pairwise (fun a b => b.count ≤ a.count)
    rw [topRoutesOf]
    exact List.Pairwise.sublist (List.take_sublist 5 _)
      (pairwise_sortByDesc (fun p : RouteCount => p.count) _)
  · intro e he
    rw [show (analytics bs ds s r now).topRoutes = topRoutesOf r now bs from rfl,
      topRoutesOf_eq r now bs] at he
    have h1 : e ∈ sortByDesc (fun p => p.count)
        (routeGroups (filteredBookings r now bs)) :=
      List.mem_of_mem_take he
    have h2 : e ∈ routeGroups (filteredBookings r now bs) :=
      (mem_sortByDesc (fun p => p.count) e _).mp h1
    exact routeGroups_count _ e h2

/-- Witness for C5: on one PENDING booking titled "Kazbegi" the single
leaderboard entry counts exactly the one filtered booking with that
title. -/
theorem topRoutes_spec_witness :
    (⟨"Kazbegi", 1⟩ : RouteCount)
        ∈ (analytics [⟨0, "PENDING", none, none, none, some "Kazbegi"⟩] []
            none .ALL 0).topRoutes ∧
    (⟨"Kazbegi", 1⟩ : RouteCount).count
      = ((filteredBookings .ALL 0 [⟨0, "PENDING", none, none, none, some "Kazbegi"⟩]).filter
          (fun x => decide (titleOf x = (⟨"Kazbegi", 1⟩ : RouteCount).name))).length := by
  have hm : (⟨"Kazbegi", 1⟩ : RouteCount)
      ∈ (analytics [⟨0, "PENDING", none, none, none, some "Kazbegi"⟩] []
          none .ALL 0).topRoutes := by decide
  exact ⟨hm,
    (topRoutes_spec [⟨0, "PENDING", none, none, none, some "Kazbegi"⟩] [] none .ALL 0).2.2.2
      ⟨"Kazbegi", 1⟩ hm⟩

/-- Claim C6: the trend series is exactly the first 10 confirmed
bookings in their existing order, mapped to (formatted creation date,
price) pairs and then reversed; its length is min(10, confirmedCount)
and it is empty when there is no confirmed booking. -/
theorem trendData_spec (bs : List Booking) (ds : List Driver)
    (s : Option SystemSettings) (r : TimeRange) (now : Int) :
    (analytics bs ds s r now).trendData
        = (((confirmedOf r now bs).take 10).map
            (fun b => TrendPoint.mk (fmtDate b.createdAt) b.numericPrice)).reverse ∧
    (analytics bs ds s r now).trendData.length
        = min 10 (analytics bs ds s r now).confirmedCount ∧
    ((analytics bs ds s r now).confirmedCount = 0 →
      (analytics bs ds s r now).trendData = []) := by
  refine ⟨rfl, ?_, ?_⟩
  · show (trendDataOf r now bs).length = min 10 (confirmedOf r now bs).length
    rw [trendDataOf, List.length_reverse, List.length_map, List.length_take]
  · intro h
    show trendDataOf r now bs = []
    have h0 : confirmedOf r now bs = [] := List.length_eq_zero.mp h
    rw [trendDataOf, h0]
    rfl

/-- Witness for C6: the empty collection has no confirmed booking and an
empty trend series. -/
theorem trendData_spec_witness :
    (analytics [] [] none .ALL 0).trendData = [] :=
  (trendData_spec [] [] none .ALL 0).2.2 rfl

/-- Claim C7: aov is 0 when there is no confirmed booking, and otherwise
is the rounded quotient of totalGross by confirmedCount, so that
aov × confirmedCount differs from totalGross by at most
confirmedCount / 2. -/
theorem aov_spec (bs : List Booking) (ds : List Driver)
    (s : Option SystemSettings) (r : TimeRange) (now : Int) :
    ((analytics bs ds s r now).confirmedCount = 0 →
      (analytics bs ds s r now).aov = 0) ∧
    (0 < (analytics bs ds s r now).confirmedCount →
      (analytics bs ds s r now).aov
          = jsRound ((analytics bs ds s r now).totalGross
              / ((analytics bs ds s r now).confirmedCount : Rat)) ∧
      |((analytics bs ds s r now).aov : Rat)
            * ((analytics bs ds s r now).confirmedCount : Rat)
          - (analytics bs ds s r now).totalGross|
        ≤ ((analytics bs ds s r now).confirmedCount : Rat) / 2) := by
  constructor
  · intro h
    show aovOf r now bs = 0
    rw [aovOf, if_neg]
    have h0 : (confirmedOf r now bs).length = 0 := h
    omega
  · intro h
    have h0 : 0 < (confirmedOf r now bs).length := h
    have haov : (analytics bs ds s r now).aov
        = jsRound (totalGrossOf r now bs / ((confirmedOf r now bs).length : Rat)) := by
      show aovOf r now bs = _
      rw [aovOf, if_pos h0]
    refine ⟨haov, ?_⟩
    set g := totalGrossOf r now bs with hg
    set c : Rat := ((confirmedOf r now bs).length : Rat) with hcdef
    have hc : (0 : Rat) < c := by
      rw [hcdef]
      exact_mod_cast h0
    have h1 : (jsRound (g / c) : Rat) ≤ g / c + 1 / 2 := jsRound_le _
    have h2 : g / c - 1 / 2 < (jsRound (g / c) : Rat) := lt_jsRound _
    have hqc : g / c * c = g := div_mul_cancel₀ g (ne_of_gt hc)
    have e1 : (g / c + 1 / 2) * c = g + c / 2 := by
      rw [add_mul, hqc]
      ring
    have e2 : (g / c - 1 / 2) * c = g - c / 2 := by
      rw [sub_mul, hqc]
      ring
    have b1 : (jsRound (g / c) : Rat) * c ≤ g + c / 2 := by
      calc (jsRound (g / c) : Rat) * c ≤ (g / c + 1 / 2) * c :=
            mul_le_mul_of_nonneg_right h1 hc.le
        _ = g + c / 2 := e1
    have b2 : g - c / 2 < (jsRound (g / c) : Rat) * c := by
      calc g - c / 2 = (g / c - 1 / 2) * c := e2.symm
        _ < (jsRound (g / c) : Rat) * c := by
            exact mul_lt_mul_of_pos_right h2 hc
    have hcc : ((analytics bs ds s r now).confirmedCount : Rat) = c := rfl
    have hgg : (analytics bs ds s r now).totalGross = g := rfl
    rw [haov, hcc, hgg, abs_le]
    constructor
    · linarith
    · linarith

/-- Witness for C7: one confirmed booking of price 100 has a positive
confirmed count, and aov is the rounded quotient. -/
theorem aov_spec_witness :
    0 < (analytics [⟨0, "CONFIRMED", some 100, none, none, none⟩] []
        none .ALL 0).confirmedCount ∧
    (analytics [⟨0, "CONFIRMED", some 100, none, none, none⟩] [] none .ALL 0).aov
      = jsRound ((analytics [⟨0, "CONFIRMED", some 100, none, none, none⟩] []
            none .ALL 0).totalGross
          / ((analytics [⟨0, "CONFIRMED", some 100, none, none, none⟩] []
            none .ALL 0).confirmedCount : Rat)) := by
  have h : 0 < (analytics [⟨0, "CONFIRMED", some 100, none, none, none⟩] []
      none .ALL 0).confirmedCount := by decide
  exact ⟨h,
    ((aov_spec [⟨0, "CONFIRMED", some 100, none, none, none⟩] [] none .ALL 0).2 h).1⟩

/-- Counterexample to claim C8 as stated: with an undefined commission
rate the source falls back to the default rate 0.13 rather than to a
zero-valued commission — on a confirmed booking of price 100 the
commission is 13, not 0. -/
theorem commission_default_not_zero :
    (analytics [⟨0, "CONFIRMED", some 100, none, none, none⟩] []
        (some ⟨none⟩) .ALL 0).totalCommission = 13 ∧
    (analytics [⟨0, "CONFIRMED", some 100, none, none, none⟩] []
        (some ⟨none⟩) .ALL 0).totalCommission ≠ 0 := by
  have h : (analytics [⟨0, "CONFIRMED", some 100, none, none, none⟩] []
      (some ⟨none⟩) .ALL 0).totalCommission = 13 := by
    norm_num [analytics, totalCommissionOf, totalGrossOf, confirmedOf, filteredBookings,
      rangePred, isConfirmedB, priceNum, commissionRateOf, jsRound, List.filter,
      List.foldl]
  refine ⟨h, ?_⟩
  rw [h]
  decide

/-- Claim C8 (amended): the aggregator is total and degrades gracefully:
on an empty booking collection every count and figure is zero and every
list empty; a missing numeric price contributes zero; and an undefined
commission rate (whether the settings record or its rate field is
absent) falls back to the default rate 0.13, the commission being
round(totalGross × 0.13). -/
theorem degenerate_inputs_spec (bs : List Booking) (ds : List Driver)
    (s : Option SystemSettings) (r : TimeRange) (now : Int) :
    ((analytics [] ds s r now).totalBookings = 0 ∧
      (analytics [] ds s r now).confirmedCount = 0 ∧
      (analytics [] ds s r now).pendingCount = 0 ∧
      (analytics [] ds s r now).cancelledCount = 0 ∧
      (analytics [] ds s r now).totalGross = 0 ∧
      (analytics [] ds s r now).totalCommission = 0 ∧
      (analytics [] ds s r now).netRevenue = 0 ∧
      (analytics [] ds s r now).aov = 0 ∧
      (analytics [] ds s r now).topDrivers = [] ∧
      (analytics [] ds s r now).topRoutes = [] ∧
      (analytics [] ds s r now).trendData = []) ∧
    (∀ b : Booking, b.numericPrice = none → priceNum b = 0) ∧
    (∀ st : SystemSettings, st.commissionRate = none →
      (analytics bs ds (some st) r now).totalCommission
        = jsRound ((analytics bs ds (some st) r now).totalGross * (13 / 100))) ∧
    (analytics bs ds none r now).totalCommission
      = jsRound ((analytics bs ds none r now).totalGross * (13 / 100)) := by
  have hfe : ∀ (r' : TimeRange) (now' : Int), filteredBookings r' now' [] = [] :=
    fun _ _ => rfl
  have hcomm : (analytics [] ds s r now).totalCommission = 0 := by
    show totalCommissionOf s r now [] = 0
    have hg : totalGrossOf r now [] = 0 := rfl
    rw [totalCommissionOf, hg, zero_mul]
    norm_num [jsRound]
  refine ⟨⟨rfl, rfl, rfl, rfl, rfl, hcomm, ?_, rfl, rfl, rfl, rfl⟩, ?_, ?_, ?_⟩
  · show netRevenueOf s r now [] = 0
    rw [netRevenueOf]
    have hg : totalGrossOf r now [] = 0 := rfl
    have hc : totalCommissionOf s r now [] = 0 := hcomm
    rw [hg, hc]
    norm_num
  · intro b hb
    simp [priceNum, hb]
  · intro st hst
    show totalCommissionOf (some st) r now bs
        = jsRound (totalGrossOf r now bs * (13 / 100))
    rw [totalCommissionOf]
    simp [commissionRateOf, hst]
  · rfl

/-- Witness for C8: a booking with a missing price contributes zero, and
a settings record with an undefined rate yields the 0.13-default
commission. -/
theorem degenerate_inputs_witness :
    priceNum ⟨0, "CONFIRMED", none, none, none, none⟩ = 0 ∧
    (analytics [⟨0, "CONFIRMED", some 100, none, none, none⟩] []
        (some ⟨none⟩) .ALL 0).totalCommission
      = jsRound ((analytics [⟨0, "CONFIRMED", some 100, none, none, none⟩] []
          (some ⟨none⟩) .ALL 0).totalGross * (13 / 100)) :=
  ⟨(degenerate_inputs_spec [] [] none .ALL 0).2.1
      ⟨0, "CONFIRMED", none, none, none, none⟩ rfl,
    (degenerate_inputs_spec [⟨0, "CONFIRMED", some 100, none, none, none⟩] []
      none .ALL 0).2.2.1 ⟨none⟩ rfl⟩

/-- Claim C9: the aggregator is deterministic — two runs on identical
inputs (bookings, drivers, settings, time range and the same current
time) produce identical outputs.  In this functional embedding the
inputs are immutable values, so the absence of input mutation holds by
construction. -/
theorem analytics_deterministic (bs bs' : List Booking) (ds ds' : List Driver)
    (s s' : Option SystemSettings) (r r' : TimeRange) (now now' : Int)
    (hbs : bs = bs') (hds : ds = ds') (hs : s = s') (hr : r = r')
    (hnow : now = now') :
    analytics bs ds s r now = analytics bs' ds' s' r' now' := by
  rw [hbs, hds, hs, hr, hnow]

/-- Witness for C9 at a concrete input. -/
theorem analytics_deterministic_witness :
    analytics [⟨0, "CONFIRMED", some 100, none, none, none⟩] [⟨"ACTIVE"⟩]
        (some ⟨some (13 / 100)⟩) .ALL 0
      = analytics [⟨0, "CONFIRMED", some 100, none, none, none⟩] [⟨"ACTIVE"⟩]
        (some ⟨some (13 / 100)⟩) .ALL 0 :=
  analytics_deterministic _ _ _ _ _ _ _ _ _ _ rfl rfl rfl rfl rfl

/-- Claim C10: each trend entry's amount is the booking's raw
numericPrice, not the zero-coerced value used by totalGross: the amounts
of the trend series are exactly the raw prices of the first 10 confirmed
bookings (reversed), while totalGross sums the coerced prices, so a
confirmed booking among the first 10 with a missing price puts an absent
amount into the trend series yet contributes zero to totalGross. -/
theorem trend_amount_raw (bs : List Booking) (ds : List Driver)
    (s : Option SystemSettings) (r : TimeRange) (now : Int) :
    (analytics bs ds s r now).trendData.map (fun e => e.amount)
        = (((confirmedOf r now bs).take 10).map (fun b => b.numericPrice)).reverse ∧
    (analytics bs ds s r now).totalGross = ((confirmedOf r now bs).map priceNum).sum ∧
    (∀ b ∈ (confirmedOf r now bs).take 10, b.numericPrice = none →
      none ∈ (analytics bs ds s r now).trendData.map (fun e => e.amount) ∧
      priceNum b = 0) := by
  have hmap : (analytics bs ds s r now).trendData.map (fun e => e.amount)
      = (((confirmedOf r now bs).take 10).map (fun b => b.numericPrice)).reverse := by
    show (trendDataOf r now bs).map (fun e => e.amount) = _
    rw [trendDataOf, List.map_reverse, List.map_map]
    rfl
  refine ⟨hmap, ?_, ?_⟩
  · show totalGrossOf r now bs = _
    rw [totalGrossOf, foldl_add_price]
    simp
  · intro b hb hnone
    constructor
    · rw [hmap, List.mem_reverse, List.mem_map]
      exact ⟨b, hb, hnone⟩
    · simp [priceNum, hnone]

/-- Witness for C10: a confirmed booking with an absent price is among
the first 10, yields an absent trend amount and a zero coerced price. -/
theorem trend_amount_raw_witness :
    (⟨0, "CONFIRMED", none, none, none, none⟩ : Booking)
        ∈ (confirmedOf .ALL 0 [⟨0, "CONFIRMED", none, none, none, none⟩]).take 10 ∧
    none ∈ (analytics [⟨0, "CONFIRMED", none, none, none, none⟩] []
        none .ALL 0).trendData.map (fun e => e.amount) ∧
    priceNum ⟨0, "CONFIRMED", none, none, none, none⟩ = 0 := by
  have hb : (⟨0, "CONFIRMED", none, none, none, none⟩ : Booking)
      ∈ (confirmedOf .ALL 0 [⟨0, "CONFIRMED", none, none, none, none⟩]).take 10 := by
    decide
  have h := (trend_amount_raw [⟨0, "CONFIRMED", none, none, none, none⟩] []
    none .ALL 0).2.2 ⟨0, "CONFIRMED", none, none, none, none⟩ hb rfl
  exact ⟨hb, h.1, h.2⟩
